import Mathlib

/-!
Verification of the net3 RPC framework's message model, JSON-RPC kind
resolver, client correlator and connection loop, as a shallow embedding of
the Rust sources.  Rust `u64` counters are modelled as `Nat` (no claim here
exercises overflow), `i64` error codes as `Int`, raw JSON payloads
(`serde_json::RawValue`) as `String`, and fallible operations as
`Except`/`Option`.
-/

namespace Net3

/-! ## Core message types: `src/message/src/types.rs` -/

/-- `MessageKind` from `src/message/src/types.rs`. -/
inductive MessageKind where
  | Undefined
  | Event
  | Request
  | Response
  | ErrorResponse
  deriving DecidableEq, Repr

/-- Default message kind is `Event` (the `Default` impl in `types.rs`). -/
instance : Inhabited MessageKind := ⟨MessageKind.Event⟩

/-- `Id` from `src/message/src/types.rs`: `Null | Str(String) | Num(u64)`. -/
inductive Id where
  | Null
  | Str (s : String)
  | Num (n : Nat)
  deriving DecidableEq, Repr

namespace Id

/-- `Id::is_none`: true exactly on `Null`. -/
def is_none : Id → Bool
  | .Null => true
  | _ => false

/-- `Id::is_some`: true exactly off `Null`. -/
def is_some : Id → Bool
  | .Null => false
  | _ => true

/-- `Id::as_str`: stringified form; `Null` has none, `Num` uses decimal. -/
def as_str : Id → Option String
  | .Null => none
  | .Str s => some s
  | .Num n => some (toString n)

/-- The derived `PartialEq`/`Eq` on `Id` used by the pending-request
`HashMap` key comparison: structural equality of variants. -/
def beq : Id → Id → Bool
  | .Null, .Null => true
  | .Str a, .Str b => a == b
  | .Num a, .Num b => a == b
  | _, _ => false

end Id

/-- `ErrorKind` from `src/message/src/types.rs`. -/
inductive ErrorKind where
  | InternalError
  | MethodNotFound
  | ErrorCode (code : Int)
  deriving DecidableEq, Repr

/-- `types::Error`: an error kind plus an optional description. -/
structure MsgError where
  kind : ErrorKind
  description : Option String
  deriving DecidableEq, Repr

/-! ## JSON-RPC error code mapping: `src/proto/jsonrpc/src/code.rs` -/

namespace ErrorCode

/-- `ErrorCode::code`: the integer value of an error kind. -/
def code : ErrorKind → Int
  | .MethodNotFound => -32601
  | .InternalError => -32603
  | .ErrorCode c => c

/-- `impl From<i64> for ErrorCode`: map an integer to an error kind. -/
def fromInt (c : Int) : ErrorKind :=
  if c = -32601 then .MethodNotFound
  else if c = -32603 then .InternalError
  else .ErrorCode c

end ErrorCode

/-! ## JSON-RPC message: `src/proto/jsonrpc/src/message.rs` -/

/-- JSON-RPC error object from `src/proto/jsonrpc/src/error.rs`:
`{code, message, data?}` where `code` wraps an `ErrorKind`. -/
structure JError where
  code : ErrorKind
  message : String
  data : Option String
  deriving DecidableEq, Repr

/-- `Error::into_error` from `src/proto/jsonrpc/src/error.rs`. -/
def JError.into_error (e : JError) : MsgError :=
  { kind := e.code, description := some e.message }

/-- The JSON-RPC `Message` struct from `src/proto/jsonrpc/src/message.rs`.
`Params` (`src/proto/jsonrpc/src/params.rs`) wraps `Option<RawValue>`;
it is modelled as `Option String` holding the raw JSON text. -/
structure JMessage where
  id : Id
  method : Option String
  params : Option String
  result : Option String
  error : Option JError
  deriving DecidableEq, Repr

/-- `is_str_empty` from `src/proto/jsonrpc/src/message.rs`: true when the
option is `None` or holds the empty string. -/
def is_str_empty : Option String → Bool
  | some inner => inner.isEmpty
  | none => true

namespace JMessage

/-- `Message::kind` from `src/proto/jsonrpc/src/message.rs`, translated
branch for branch (including the `is_str_empty` test in the no-id arm). -/
def kind (m : JMessage) : MessageKind :=
  if m.id.is_some then
    if m.error.isNone then
      if m.result.isSome || m.method.isNone then
        MessageKind.Response
      else
        MessageKind.Request
    else if m.result.isNone then
      MessageKind.ErrorResponse
    else
      MessageKind.Undefined
  else
    if is_str_empty m.method then
      MessageKind.Event
    else
      MessageKind.Undefined

/-- `Message::read_optional` from `src/proto/jsonrpc/src/message.rs`,
with the `serde_json::from_str` payload decoder abstracted as `dec`. -/
def read_optional (dec : String → Except String α) (m : JMessage) :
    Except String (Option α) :=
  let params :=
    if m.params.isSome then m.params
    else if m.result.isSome then m.result
    else none
  match params with
  | some p => (dec p).map some
  | none => Except.ok none

/-- `traits::Error::into_error` for the JSON-RPC message. -/
def into_error (m : JMessage) : Option MsgError :=
  m.error.map JError.into_error

end JMessage

/-! ## I/O errors and RPC call errors -/

/-- The `std::io::ErrorKind` values the loop and client code use, plus a
`Panic` marker for `.expect(..)` aborts. -/
inductive IoErr where
  | ConnectionAborted
  | ConnectionReset
  | InvalidData
  | TimedOut
  | Panic
  deriving DecidableEq, Repr

/-- `net3_rpc_error::Error`: an I/O error or an RPC error response. -/
inductive CallError where
  | Io (e : IoErr)
  | Rpc (e : MsgError)
  deriving DecidableEq, Repr

/-! ## Message interface used by the generic client handler.

`ClientHandler` in `src/rpc/client/src/handler.rs` is generic over the
`net3_msg` `Message` trait; these are the trait methods it calls. -/

class MessageIface (M : Type) where
  mid : M → Id
  mkind : M → MessageKind
  minto_error : M → Option MsgError

instance : MessageIface JMessage where
  mid m := m.id
  mkind := JMessage.kind
  minto_error := JMessage.into_error

/-! ## Pending-request map.

`ClientHandler.requests` is a `HashMap<Id, SpannedSender>`; key comparison
uses the derived `Eq`/`Hash` on `Id` (`Id.beq`).  Modelled as an
association list with unique keys; the oneshot sender is modelled by a
`Nat` token naming the reply slot. -/

/-- Association-list lookup with the map's key equality (`Id.beq`). -/
def lookupKey (l : List (Id × α)) (k : Id) : Option α :=
  match l with
  | [] => none
  | (k', v) :: rest => if Id.beq k' k then some v else lookupKey rest k

/-- `HashMap::remove`: drop the entry with the given key. -/
def eraseKey (l : List (Id × α)) (k : Id) : List (Id × α) :=
  l.filter (fun p => !(Id.beq p.1 k))

/-- `HashMap::insert`: bind the key, replacing an existing entry. -/
def insertKey (l : List (Id × α)) (k : Id) (v : α) : List (Id × α) :=
  (k, v) :: eraseKey l k

/-- `HashMap::remove` returning the removed value and the rest of the map,
as used by the `Response`/`ErrorResponse` delivery path. -/
def removeKey (l : List (Id × α)) (k : Id) : Option α × List (Id × α) :=
  (lookupKey l k, eraseKey l k)

/-! ## Client correlator: `src/rpc/client/src/handler.rs` -/

/-- `ClientMessage` from `handler.rs::internal`: the mailbox item.  The
oneshot `ResponseSender` is the `Option Nat` slot token; tracing spans are
not modelled. -/
inductive ClientMessage (M : Type) where
  | Close
  | Cancel (request : Id)
  | Request (message : M) (sender : Option Nat)

/-- Mutable state of `ClientHandler`: the pending-request map, the pending
counter and the shared owned-handle counter. -/
structure ClientState (M : Type) where
  requests : List (Id × Nat)
  pending_requests : Nat
  client_handles : Nat
  deriving Repr

/-- Result of one `Stream::poll_next` call on `ClientHandler`. -/
inductive PollResult (M : Type) where
  | item (r : Except IoErr M)
  | endOfStream
  | pending

/-- `ClientHandler::poll_next` from `src/rpc/client/src/handler.rs`.
`polled` is what `receiver.poll_next` returned: `some (some msg)` for
`Ready(Some(msg))`, `some none` for `Ready(None)` (mailbox closed), and
`none` for `Pending`. -/
def poll_next [MessageIface M] (st : ClientState M)
    (polled : Option (Option (ClientMessage M))) :
    ClientState M × PollResult M :=
  match polled with
  | some (some .Close) => (st, .item (.error .ConnectionAborted))
  | some (some (.Cancel request)) =>
      ({ st with requests := eraseKey st.requests request }, .pending)
  | some (some (.Request message (some sender))) =>
      ({ st with
          requests := insertKey st.requests (MessageIface.mid message) sender,
          pending_requests := st.pending_requests + 1 },
        .item (.ok message))
  | some (some (.Request message none)) => (st, .item (.ok message))
  | some none => (st, .endOfStream)
  | none =>
      if st.client_handles = 0 then (st, .endOfStream) else (st, .pending)

/-- What `handle_remote_message` did with the reply slot of a correlated
response: resolved a slot, or found no pending entry and dropped it. -/
inductive Delivery (M : Type) where
  | noSlot
  | delivered (slot : Nat) (r : Except MsgError M)
  | droppedResponse

/-- `ClientHandler::handle_remote_message` from `handler.rs`: dispatch on
message kind.  `hNotif`/`hReq` are the user handler's
`handle_notification`/`handle_request`; the returned list is the replies
written back to the channel.  The `.expect("error")` on a missing error of
an `ErrorResponse` is modelled as `IoErr.Panic`. -/
def handle_remote_message [MessageIface M]
    (hNotif hReq : M → Except IoErr (List M))
    (st : ClientState M) (m : M) :
    Except IoErr (ClientState M × Delivery M × List M) :=
  match MessageIface.mkind m with
  | .Undefined => .error .InvalidData
  | .Event => (hNotif m).map (fun msgs => (st, .noSlot, msgs))
  | .Request => (hReq m).map (fun msgs => (st, .noSlot, msgs))
  | .Response =>
      match lookupKey st.requests (MessageIface.mid m) with
      | some sender =>
          .ok ({ st with requests := eraseKey st.requests (MessageIface.mid m) },
               .delivered sender (.ok m), [])
      | none => .ok (st, .droppedResponse, [])
  | .ErrorResponse =>
      match lookupKey st.requests (MessageIface.mid m) with
      | some sender =>
          match MessageIface.minto_error m with
          | some err =>
              .ok ({ st with
                      requests := eraseKey st.requests (MessageIface.mid m)
                      pending_requests := st.pending_requests - 1 },
                   .delivered sender (.error err), [])
          | none => .error .Panic
      | none => .ok (st, .droppedResponse, [])

/-! ## Request timeout path: `src/rpc/client/src/handle.rs` -/

/-- Outcome of `timeout(request_timeout, receiver).await` inside
`Handle::request_timeout`: the slot resolved with a response or an RPC
error, the slot's sender was dropped, or the timer fired first. -/
inductive AwaitOutcome (M : Type) where
  | resolved (r : Except MsgError M)
  | slotDropped
  | timedOut

/-- The tail of `Handle::request_timeout` from `handle.rs`, as a function
of the await outcome: returns the mailbox items it posts and the call
result.  `readOpt` is `message.read_optional()`; its error is propagated
as an I/O call error. -/
def request_timeout (readOpt : M → Except IoErr (Option R)) (msg_id : Id)
    (outcome : AwaitOutcome M) :
    List (ClientMessage M) × Except CallError (Option R) :=
  match outcome with
  | .resolved (.ok message) =>
      ([], match readOpt message with
           | .ok v => .ok v
           | .error e => .error (.Io e))
  | .resolved (.error err) => ([], .error (.Rpc err))
  | .slotDropped => ([], .error (.Io .ConnectionReset))
  | .timedOut => ([.Cancel msg_id], .error (.Io .TimedOut))

/-! ## Loop core: `src/rpc/conn/src/lib.rs` -/

/-- One firing of the three-way `select!` in `start_loop`: an item or end
of stream from the handler (outbound mailbox), the framed channel, or the
internal-event stream. -/
inductive SelectEvent (M E : Type) where
  | handlerItem (r : Except IoErr M)
  | handlerEnd
  | channelItem (r : Except IoErr M)
  | channelEnd
  | eventItem (e : E)
  | eventsEnd

/-- The two `LoopHandler` callbacks (`src/rpc/conn/handler/src/lib.rs`),
with handler state passed explicitly and replies returned as a list. -/
structure LoopHandlerFns (σ M E : Type) where
  remote : σ → M → Except IoErr (σ × List M)
  internal : σ → E → Except IoErr (σ × List M)

/-- Outcome of running `start_loop` over a finite prefix of select firings:
either the loop is still running (with the handler state and the messages
written to the wire so far), or it exited with a result. -/
inductive LoopOutcome (σ M : Type) where
  | running (st : σ) (wire : List M)
  | exited (wire : List M) (result : Except IoErr Unit)

/-- `start_loop` from `src/rpc/conn/src/lib.rs` as an interpreter over a
list of select firings.  Each arm matches the source: handler items are
written to the channel, handler errors and stream ends exit; channel items
go through `handle_remote_message` whose replies are written in order;
internal events go through `handle_internal_event`.  (The `complete`
branch of the `select!` is unreachable because every end-of-stream arm
returns first.) -/
def start_loop (h : LoopHandlerFns σ M E) (st : σ) (wire : List M) :
    List (SelectEvent M E) → LoopOutcome σ M
  | [] => .running st wire
  | ev :: rest =>
    match ev with
    | .handlerItem (.ok message) => start_loop h st (wire ++ [message]) rest
    | .handlerItem (.error err) => .exited wire (.error err)
    | .handlerEnd => .exited wire (.error .ConnectionAborted)
    | .channelItem (.ok message) =>
        match h.remote st message with
        | .ok (st', msgs) => start_loop h st' (wire ++ msgs) rest
        | .error err => .exited wire (.error err)
    | .channelItem (.error err) => .exited wire (.error err)
    | .channelEnd => .exited wire (.error .ConnectionReset)
    | .eventItem e =>
        match h.internal st e with
        | .ok (st', msgs) => start_loop h st' (wire ++ msgs) rest
        | .error err => .exited wire (.error err)
    | .eventsEnd => .exited wire (.error .ConnectionAborted)

/-! ## Reconnect supervisor: `src/rpc/client/src/builder.rs` -/

/-- `Builder::start_loop_reconnect`, fuel-indexed.  `counts i` is the value
the `client_handles` counter shows at the top of iteration `i`.  At the
top of each iteration the supervisor returns `Ok(())` (`some ()`) if the
counter is zero; otherwise it connects, re-initializes, runs the loop core
and — whether the loop returned `Ok` or an error — continues with the next
iteration.  `none` means the fuel ran out while still looping. -/
def start_loop_reconnect : Nat → (Nat → Nat) → Option Unit
  | 0, _ => none
  | fuel + 1, counts =>
      if counts 0 = 0 then some ()
      else start_loop_reconnect fuel (fun i => counts (i + 1))

/-! ## Compact message wire form: `src/message/src/compact.rs` -/

/-- Atomic JSON values as produced by serde for the compact message's
fields.  `tagged t v` is the externally tagged newtype variant
`{"t": v}` (used for `ErrorKind::ErrorCode(i64)`). -/
inductive JsonAtom where
  | null
  | str (s : String)
  | num (n : Int)
  | tagged (tag : String) (v : Int)
  deriving DecidableEq, Repr

/-- A serialized field value: an atom or a flat object of atoms. -/
inductive JsonValue where
  | atom (a : JsonAtom)
  | obj (fields : List (String × JsonAtom))
  deriving DecidableEq, Repr

/-- serde encoding of `MessageKind` (unit variants → strings). -/
def kindToJson : MessageKind → JsonAtom
  | .Undefined => .str "Undefined"
  | .Event => .str "Event"
  | .Request => .str "Request"
  | .Response => .str "Response"
  | .ErrorResponse => .str "ErrorResponse"

/-- serde encoding of `ErrorKind`: unit variants → strings, the newtype
variant `ErrorCode(i64)` → `{"ErrorCode": code}`. -/
def errorKindToJson : ErrorKind → JsonAtom
  | .InternalError => .str "InternalError"
  | .MethodNotFound => .str "MethodNotFound"
  | .ErrorCode c => .tagged "ErrorCode" c

/-- serde encoding of the untagged `Id`. -/
def idToJson : Id → JsonAtom
  | .Null => .null
  | .Str s => .str s
  | .Num n => .num (Int.ofNat n)

/-- The compact `Message` struct from `src/message/src/compact.rs`, with
its fields in declaration order: `kind`, `error` (a flat
`Option<ErrorKind>`), `id`, `name`, `description`, `data`. -/
structure CMessage where
  kind : MessageKind
  error : Option ErrorKind
  id : Id
  name : Option String
  description : Option String
  data : Option String
  deriving DecidableEq, Repr

/-- serde serialization of the compact message as an ordered field list,
following the struct's field order and `skip_serializing_if` attributes:
`error`, `name`, `description`, `data` are skipped when `None`, `id` when
`Null`; `kind` is always present. -/
def CMessage.serialize (m : CMessage) : List (String × JsonValue) :=
  [("kind", .atom (kindToJson m.kind))]
  ++ (match m.error with
      | some e => [("error", .atom (errorKindToJson e))]
      | none => [])
  ++ (if m.id.is_none then [] else [("id", .atom (idToJson m.id))])
  ++ (match m.name with
      | some s => [("name", JsonValue.atom (.str s))]
      | none => [])
  ++ (match m.description with
      | some s => [("description", JsonValue.atom (.str s))]
      | none => [])
  ++ (match m.data with
      | some s => [("data", JsonValue.atom (.str s))]
      | none => [])

/-- Modelled from the spec: the Compact wire form the spec describes —
field names `kind`, `id`, `name`, `data` (payload as opaque string) and
`error`, where `error` is an embedded object `{kind, description?}` and
absent optionals are omitted.  Written to be compared against
`CMessage.serialize`, which embeds the source. -/
def specCompactSerialize (m : CMessage) : List (String × JsonValue) :=
  [("kind", .atom (kindToJson m.kind))]
  ++ (if m.id.is_none then [] else [("id", .atom (idToJson m.id))])
  ++ (match m.name with
      | some s => [("name", JsonValue.atom (.str s))]
      | none => [])
  ++ (match m.data with
      | some s => [("data", JsonValue.atom (.str s))]
      | none => [])
  ++ (match m.error with
      | some e =>
          [("error", JsonValue.obj
            ([("kind", errorKindToJson e)]
             ++ (match m.description with
                 | some d => [("description", JsonAtom.str d)]
                 | none => [])))]
      | none => [])

/-! ## Client loop state machine (correlator wired into the loop core).

`start_loop` polls `ClientHandler` as the outbound stream and feeds it
inbound frames; this machine composes the two for the correlation
invariant, adding ghost fields that record which correlated request ids
have been written to the wire, delivered, or cancelled. -/

/-- One input to the client loop: a dequeued mailbox item (the
`Ready(Some(..))` arm of `ClientHandler::poll_next`) or an inbound frame
from the socket. -/
inductive ClientEvent (M : Type) where
  | mailbox (item : ClientMessage M)
  | remote (m : M)

/-- Client loop state: handler state, the wire (messages written), and
ghost histories of correlated ids written / delivered / cancelled. -/
structure LoopState (M : Type) where
  st : ClientState M
  wire : List M
  writtenIds : List Id
  delivered : List Id
  cancelled : List Id

/-- The initial loop state: empty pending map, nothing written. -/
def initLoopState {M : Type} (handles : Nat) : LoopState M :=
  ⟨⟨[], 0, handles⟩, [], [], [], []⟩

/-- One serialized step of the client loop: a mailbox item goes through
`ClientHandler::poll_next` (map updates happen there) and the yielded
message is then written to the wire; an inbound frame goes through
`ClientHandler::handle_remote_message` and its replies are written.
`none` means the loop exits on this step (`Close`, an `Undefined` inbound
kind, a user-handler error, or the missing-error panic). -/
def clientStep [MessageIface M] (hNotif hReq : M → Except IoErr (List M))
    (s : LoopState M) (ev : ClientEvent M) : Option (LoopState M) :=
  match ev with
  | .mailbox .Close => none
  | .mailbox (.Cancel request) =>
      some { s with
              st := (poll_next s.st (some (some (.Cancel request)))).1
              cancelled := s.cancelled ++ [request] }
  | .mailbox (.Request message (some sender)) =>
      some { s with
              st := (poll_next s.st (some (some (.Request message (some sender))))).1
              wire := s.wire ++ [message]
              writtenIds := s.writtenIds ++ [MessageIface.mid message] }
  | .mailbox (.Request message none) =>
      some { s with
              st := (poll_next s.st (some (some (.Request message none)))).1
              wire := s.wire ++ [message] }
  | .remote m =>
      match handle_remote_message hNotif hReq s.st m with
      | .ok (st', d, msgs) =>
          some { s with
                  st := st'
                  wire := s.wire ++ msgs
                  delivered :=
                    match d with
                    | .delivered _ _ => s.delivered ++ [MessageIface.mid m]
                    | _ => s.delivered }
      | .error _ => none

/-- States of the client loop reachable from an initial state by
serialized steps. -/
inductive ReachableLoop [MessageIface M] (hNotif hReq : M → Except IoErr (List M)) :
    LoopState M → Prop where
  | init (handles : Nat) : ReachableLoop hNotif hReq (initLoopState handles)
  | step {s s' : LoopState M} (ev : ClientEvent M) :
      ReachableLoop hNotif hReq s → clientStep hNotif hReq s ev = some s' →
      ReachableLoop hNotif hReq s'

/-- Correlation invariant: every correlated request id ever written to the
wire either still has its pending-map entry, or was delivered, or was
cancelled. -/
def corrInvariant {M : Type} (s : LoopState M) : Prop :=
  ∀ i ∈ s.writtenIds,
    (lookupKey s.st.requests i).isSome = true ∨ i ∈ s.delivered ∨ i ∈ s.cancelled

/-! ## Helper lemmas about `Id` equality and the pending map -/

theorem Id.beq_iff_eq (a b : Id) : Id.beq a b = true ↔ a = b := by
  cases a <;> cases b <;> simp [Id.beq]

theorem Id.beq_refl (a : Id) : Id.beq a a = true := (Id.beq_iff_eq a a).2 rfl

theorem Id.beq_eq_false_of_ne {a b : Id} (h : ¬a = b) : Id.beq a b = false := by
  cases hb : Id.beq a b
  · rfl
  · exact absurd ((Id.beq_iff_eq a b).1 hb) h

theorem lookupKey_eraseKey_ne {α} {k i : Id} (h : ¬k = i) (l : List (Id × α)) :
    lookupKey (eraseKey l k) i = lookupKey l i := by
  induction l with
  | nil => rfl
  | cons p rest ih =>
    by_cases hp : Id.beq p.1 k = true
    · have hpk : p.1 = k := (Id.beq_iff_eq _ _).1 hp
      have hpi : Id.beq p.1 i = false :=
        Id.beq_eq_false_of_ne (by rw [hpk]; exact h)
      simp only [eraseKey, List.filter_cons, hp, Bool.not_true, lookupKey] at *
      simpa [hpi] using ih
    · have hp' : (!Id.beq p.1 k) = true := by
        cases hb : Id.beq p.1 k
        · rfl
        · exact absurd hb hp
      simp only [eraseKey, List.filter_cons, hp'] at *
      simp only [if_true, lookupKey]
      rw [ih]

theorem lookupKey_insertKey_self {α} (l : List (Id × α)) (k : Id) (v : α) :
    lookupKey (insertKey l k v) k = some v := by
  simp [insertKey, lookupKey, Id.beq_refl]

theorem lookupKey_insertKey_ne {α} {k i : Id} (h : ¬k = i) (l : List (Id × α)) (v : α) :
    lookupKey (insertKey l k v) i = lookupKey l i := by
  simp only [insertKey, lookupKey, Id.beq_eq_false_of_ne h]
  simpa using lookupKey_eraseKey_ne h l

theorem corrInvariant_init {M : Type} (handles : Nat) :
    corrInvariant (initLoopState handles : LoopState M) := by
  intro i hi
  simp [initLoopState] at hi

theorem corrInvariant_step {M : Type} [MessageIface M]
    {hNotif hReq : M → Except IoErr (List M)} {s s' : LoopState M}
    (ev : ClientEvent M) (hinv : corrInvariant s)
    (hstep : clientStep hNotif hReq s ev = some s') : corrInvariant s' := by
  cases ev with
  | mailbox item =>
    cases item with
    | Close => simp [clientStep] at hstep
    | Cancel request =>
      simp only [clientStep, poll_next, Option.some.injEq] at hstep
      subst hstep
      intro i hi
      by_cases hik : request = i
      · subst hik
        right; right; simp
      · rcases hinv i hi with h1 | h2 | h3
        · left; simpa [lookupKey_eraseKey_ne hik] using h1
        · right; left; exact h2
        · right; right; simp [h3]
    | Request message sender =>
      cases sender with
      | some sender =>
        simp only [clientStep, poll_next, Option.some.injEq] at hstep
        subst hstep
        intro i hi
        simp only [List.mem_append, List.mem_singleton] at hi
        rcases hi with hi | hi
        · by_cases hik : MessageIface.mid message = i
          · subst hik
            left; simp [lookupKey_insertKey_self]
          · rcases hinv i hi with h1 | h2 | h3
            · left; simpa [lookupKey_insertKey_ne hik] using h1
            · right; left; exact h2
            · right; right; exact h3
        · subst hi
          left; simp [lookupKey_insertKey_self]
      | none =>
        simp only [clientStep, poll_next, Option.some.injEq] at hstep
        subst hstep
        intro i hi
        exact hinv i hi
  | remote m =>
    cases hk : MessageIface.mkind m with
    | Undefined => simp [clientStep, handle_remote_message, hk] at hstep
    | Event =>
      cases hn : hNotif m with
      | error e => simp [clientStep, handle_remote_message, hk, hn, Except.map] at hstep
      | ok msgs =>
        simp only [clientStep, handle_remote_message, hk, hn, Except.map,
          Option.some.injEq] at hstep
        subst hstep
        intro i hi
        exact hinv i hi
    | Request =>
      cases hn : hReq m with
      | error e => simp [clientStep, handle_remote_message, hk, hn, Except.map] at hstep
      | ok msgs =>
        simp only [clientStep, handle_remote_message, hk, hn, Except.map,
          Option.some.injEq] at hstep
        subst hstep
        intro i hi
        exact hinv i hi
    | Response =>
      cases hl : lookupKey s.st.requests (MessageIface.mid m) with
      | none =>
        simp only [clientStep, handle_remote_message, hk, hl,
          Option.some.injEq] at hstep
        subst hstep
        intro i hi
        exact hinv i hi
      | some sender =>
        simp only [clientStep, handle_remote_message, hk, hl,
          Option.some.injEq] at hstep
        subst hstep
        intro i hi
        by_cases hik : MessageIface.mid m = i
        · subst hik
          right; left; simp
        · rcases hinv i hi with h1 | h2 | h3
          · left; simpa [lookupKey_eraseKey_ne hik] using h1
          · right; left; simp [h2]
          · right; right; exact h3
    | ErrorResponse =>
      cases hl : lookupKey s.st.requests (MessageIface.mid m) with
      | none =>
        simp only [clientStep, handle_remote_message, hk, hl,
          Option.some.injEq] at hstep
        subst hstep
        intro i hi
        exact hinv i hi
      | some sender =>
        cases he : MessageIface.minto_error m with
        | none => simp [clientStep, handle_remote_message, hk, hl, he] at hstep
        | some err =>
          simp only [clientStep, handle_remote_message, hk, hl, he,
            Option.some.injEq] at hstep
          subst hstep
          intro i hi
          by_cases hik : MessageIface.mid m = i
          · subst hik
            right; left; simp
          · rcases hinv i hi with h1 | h2 | h3
            · left; simpa [lookupKey_eraseKey_ne hik] using h1
            · right; left; simp [h2]
            · right; right; exact h3

/-- The correlation invariant holds in every reachable client-loop state. -/
theorem corrInvariant_reachable {M : Type} [MessageIface M]
    {hNotif hReq : M → Except IoErr (List M)} {s : LoopState M}
    (h : ReachableLoop hNotif hReq s) : corrInvariant s := by
  induction h with
  | init handles => exact corrInvariant_init handles
  | step ev _ hstep ih => exact corrInvariant_step ev ih hstep

/-! ## Claim theorems -/

/-- C1: evaluation of the kind resolver at the divergence point.  The
source's no-id arm tests `is_str_empty(&self.method)` and returns `Event`
when it is true, so a message with no id and the non-empty method "ping"
is classified `Undefined`, and a message with no id and no method at all
is classified `Event` — exactly the opposite of the claim and of the
source comment's stated intent ("to make sure it's a notification
validate existence of method field"). -/
theorem kind_no_id_inverted_eval :
    JMessage.kind ⟨Id.Null, some "ping", none, none, none⟩ =
      MessageKind.Undefined ∧
    JMessage.kind ⟨Id.Null, none, none, none, none⟩ = MessageKind.Event := by
  exact ⟨rfl, rfl⟩

/-- C2: counterexample.  `Str "1"` and `Num 1` have equal stringified
forms, yet the pending-map key equality distinguishes them, and a pending
entry stored under `Str "1"` is not found for an inbound id `Num 1`. -/
theorem id_match_stringified_counterexample :
    Id.as_str (Id.Str "1") = Id.as_str (Id.Num 1) ∧
    Id.beq (Id.Str "1") (Id.Num 1) = false ∧
    lookupKey [(Id.Str "1", 0)] (Id.Num 1) = none := by
  refine ⟨by decide, rfl, rfl⟩

/-- C2 (amended): two Ids are interchangeable identities for correlator
matching iff they are structurally equal; a `Str` and a `Num` id never
match, so a pending entry stored under `Str (decimal n)` is skipped by a
lookup for `Num n`. -/
theorem id_match_structural :
    (∀ a b : Id, Id.beq a b = true ↔ a = b) ∧
    (∀ (n v : Nat) (l : List (Id × Nat)),
      lookupKey ((Id.Str (toString n), v) :: l) (Id.Num n) =
        lookupKey l (Id.Num n)) := by
  refine ⟨Id.beq_iff_eq, ?_⟩
  intro n v l
  simp [lookupKey, Id.beq]

/-- C3: with an id present, the kind resolver follows the table: error
absent and (result present or method absent) gives Response (so `{id,
result, method}` is a Response, not Undefined); error absent, result
absent, method present gives Request; error present and result absent
gives ErrorResponse; both result and error present gives Undefined. -/
theorem kind_with_id_table (m : JMessage) (h : m.id.is_some = true) :
    (m.error = none → (m.result.isSome || m.method.isNone) = true →
      m.kind = MessageKind.Response) ∧
    (m.error = none → m.result = none → m.method.isSome = true →
      m.kind = MessageKind.Request) ∧
    (m.error.isSome = true → m.result = none →
      m.kind = MessageKind.ErrorResponse) ∧
    (m.error.isSome = true → m.result.isSome = true →
      m.kind = MessageKind.Undefined) := by
  refine ⟨?_, ?_, ?_, ?_⟩
  · intro h1 h2
    simp [JMessage.kind, h, h1, h2]
  · intro h1 h2 h3
    obtain ⟨x, hx⟩ := Option.isSome_iff_exists.mp h3
    simp [JMessage.kind, h, h1, h2, hx]
  · intro h1 h2
    obtain ⟨e, he⟩ := Option.isSome_iff_exists.mp h1
    simp [JMessage.kind, h, he, h2]
  · intro h1 h2
    obtain ⟨e, he⟩ := Option.isSome_iff_exists.mp h1
    obtain ⟨r, hr⟩ := Option.isSome_iff_exists.mp h2
    simp [JMessage.kind, h, he, hr]

/-- C3 witness: the Stratum-style message with id, result and a non-empty
method resolves to Response. -/
theorem kind_with_id_table_witness :
    JMessage.kind ⟨Id.Num 1, some "test", none, some "1", none⟩ =
      MessageKind.Response :=
  (kind_with_id_table ⟨Id.Num 1, some "test", none, some "1", none⟩
    (by decide)).1 rfl (by decide)

/-- C4: when the per-call timer fires first, `request_timeout` posts
`Cancel(id)` to the mailbox and returns a timeout error; the loop
processes `Cancel` by removing the pending entry for that id (and stays
pending); and a Response whose id has no pending entry is dropped: the
state is unchanged, no slot is resolved and no reply is produced. -/
theorem timeout_cancel_late_response {M R : Type} [MessageIface M]
    (readOpt : M → Except IoErr (Option R)) (msg_id : Id)
    (hNotif hReq : M → Except IoErr (List M))
    (st : ClientState M) (m : M)
    (hkind : MessageIface.mkind m = MessageKind.Response)
    (hmiss : lookupKey st.requests (MessageIface.mid m) = none) :
    request_timeout readOpt msg_id AwaitOutcome.timedOut =
      ([ClientMessage.Cancel msg_id],
        Except.error (CallError.Io IoErr.TimedOut)) ∧
    (∀ st' : ClientState M,
      poll_next st' (some (some (ClientMessage.Cancel msg_id))) =
        ({ st' with requests := eraseKey st'.requests msg_id },
          PollResult.pending)) ∧
    handle_remote_message hNotif hReq st m =
      Except.ok (st, Delivery.droppedResponse, []) := by
  refine ⟨rfl, fun st' => rfl, ?_⟩
  simp [handle_remote_message, hkind, hmiss]

/-- C4 witness: a JSON-RPC response with id "0" arriving at an empty
pending map is dropped without effect. -/
theorem timeout_cancel_late_response_witness :
    handle_remote_message (fun _ => Except.ok []) (fun _ => Except.ok [])
        (⟨[], 0, 1⟩ : ClientState JMessage)
        ⟨Id.Str "0", none, none, some "42", none⟩ =
      Except.ok (⟨[], 0, 1⟩, Delivery.droppedResponse, []) :=
  (timeout_cancel_late_response (fun _ => Except.ok (none : Option Nat))
    (Id.Str "0") (fun _ => Except.ok []) (fun _ => Except.ok [])
    (⟨[], 0, 1⟩ : ClientState JMessage)
    (⟨Id.Str "0", none, none, some "42", none⟩ : JMessage)
    (by decide) rfl).2.2

/-- C5: in the step that dequeues an Outbound item with a reply slot, the
post-state's pending map already binds the message id to the slot and the
message is appended to the wire in that same state; and in every reachable
loop state, every correlated request id written to the wire either still
has its pending entry or was delivered or cancelled. -/
theorem correlation_insert_before_write {M : Type} [MessageIface M]
    (hNotif hReq : M → Except IoErr (List M)) (s : LoopState M)
    (h : ReachableLoop hNotif hReq s) :
    corrInvariant s ∧
    ∀ (m : M) (sender : Nat) (s' : LoopState M),
      clientStep hNotif hReq s
          (ClientEvent.mailbox (ClientMessage.Request m (some sender))) =
        some s' →
      lookupKey s'.st.requests (MessageIface.mid m) = some sender ∧
      s'.wire = s.wire ++ [m] := by
  refine ⟨corrInvariant_reachable h, ?_⟩
  intro m sender s' hstep
  simp only [clientStep, poll_next, Option.some.injEq] at hstep
  subst hstep
  exact ⟨lookupKey_insertKey_self _ _ _, rfl⟩

/-- C5 witness: the correlation invariant at the initial loop state. -/
theorem correlation_insert_before_write_witness :
    corrInvariant (initLoopState 1 : LoopState JMessage) :=
  (correlation_insert_before_write (fun _ => Except.ok [])
    (fun _ => Except.ok []) (initLoopState 1) (ReachableLoop.init 1)).1

/-- C6: with the owned-handle counter at zero, a pending mailbox poll
makes the outbound handler stream return end-of-stream; the loop core
terminates when the handler stream ends; and the reconnect supervisor
returns success when it observes the counter at zero at the top of its
loop. -/
theorem idle_shutdown {σ M E : Type} [MessageIface M]
    (st : ClientState M) (h0 : st.client_handles = 0)
    (counts : Nat → Nat) (fuel : Nat) (hc : counts 0 = 0)
    (hfn : LoopHandlerFns σ M E) (s0 : σ) (wire : List M)
    (rest : List (SelectEvent M E)) :
    poll_next st none = (st, PollResult.endOfStream) ∧
    start_loop hfn s0 wire (SelectEvent.handlerEnd :: rest) =
      LoopOutcome.exited wire (Except.error IoErr.ConnectionAborted) ∧
    start_loop_reconnect (fuel + 1) counts = some () := by
  refine ⟨?_, rfl, ?_⟩
  · simp [poll_next, h0]
  · simp [start_loop_reconnect, hc]

/-- C6 witness: a client state with zero owned handles and an empty
pending mailbox ends the outbound stream. -/
theorem idle_shutdown_witness :
    poll_next (⟨[], 0, 0⟩ : ClientState JMessage) none =
      ((⟨[], 0, 0⟩ : ClientState JMessage), PollResult.endOfStream) :=
  (idle_shutdown (⟨[], 0, 0⟩ : ClientState JMessage) rfl (fun _ => 0) 0 rfl
    (⟨fun s _ => Except.ok (s, []), fun s _ => Except.ok (s, [])⟩ :
      LoopHandlerFns Unit JMessage Unit)
    () [] []).1

/-- C7: the loop core's exit outcomes per source: a handler-stream error
is returned as is, handler end of stream exits with ConnectionAborted, a
channel (decode) error is returned as is, channel end of stream exits with
ConnectionReset, and internal-event end of stream exits with
ConnectionAborted. -/
theorem loop_exit_outcomes {σ M E : Type} (h : LoopHandlerFns σ M E)
    (st : σ) (wire : List M) (rest : List (SelectEvent M E)) (err : IoErr) :
    start_loop h st wire (SelectEvent.handlerItem (Except.error err) :: rest) =
      LoopOutcome.exited wire (Except.error err) ∧
    start_loop h st wire (SelectEvent.handlerEnd :: rest) =
      LoopOutcome.exited wire (Except.error IoErr.ConnectionAborted) ∧
    start_loop h st wire (SelectEvent.channelItem (Except.error err) :: rest) =
      LoopOutcome.exited wire (Except.error err) ∧
    start_loop h st wire (SelectEvent.channelEnd :: rest) =
      LoopOutcome.exited wire (Except.error IoErr.ConnectionReset) ∧
    start_loop h st wire (SelectEvent.eventsEnd :: rest) =
      LoopOutcome.exited wire (Except.error IoErr.ConnectionAborted) :=
  ⟨rfl, rfl, rfl, rfl, rfl⟩

/-- C8: mapping any integer code to an error kind and back is the
identity: the two named codes map to their variants and everything else
round-trips through `ErrorCode(i)`. -/
theorem error_code_roundtrip (i : Int) :
    ErrorCode.code (ErrorCode.fromInt i) = i := by
  unfold ErrorCode.fromInt
  split_ifs with h1 h2
  · simp [ErrorCode.code, h1]
  · simp [ErrorCode.code, h2]
  · rfl

/-- C9: counterexample.  On a compact message carrying an error kind and a
description, the source serializes a flat `error` field (the bare kind)
plus a separate top-level `description` field, not the embedded
`{kind, description?}` object the claim describes. -/
theorem compact_wire_error_object_counterexample :
    CMessage.serialize
        ⟨MessageKind.ErrorResponse, some ErrorKind.InternalError,
          Id.Num 1, none, some "boom", none⟩ ≠
      specCompactSerialize
        ⟨MessageKind.ErrorResponse, some ErrorKind.InternalError,
          Id.Num 1, none, some "boom", none⟩ := by
  decide

/-- C9 (amended): the compact wire form has the fields `kind`, `error`,
`id`, `name`, `description`, `data` in that order, each optional one
omitted when absent (`id` when Null); `error` carries the bare error kind
and `description` is its own top-level optional string field. -/
theorem compact_wire_fields (m : CMessage) :
    m.serialize.map Prod.fst =
      ["kind"]
      ++ (if m.error.isSome then ["error"] else [])
      ++ (if m.id.is_some then ["id"] else [])
      ++ (if m.name.isSome then ["name"] else [])
      ++ (if m.description.isSome then ["description"] else [])
      ++ (if m.data.isSome then ["data"] else []) ∧
    (m.serialize.filter (fun p => p.1 == "error")).map Prod.snd =
      (m.error.map (fun e => JsonValue.atom (errorKindToJson e))).toList ∧
    (m.serialize.filter (fun p => p.1 == "description")).map Prod.snd =
      (m.description.map (fun s => JsonValue.atom (JsonAtom.str s))).toList := by
  refine ⟨?_, ?_, ?_⟩ <;>
    cases he : m.error <;> cases hi : m.id <;> cases hn : m.name <;>
      cases hd : m.description <;> cases hdata : m.data <;>
      simp [CMessage.serialize, Id.is_none, Id.is_some, he, hi, hn, hd, hdata]

/-- C10: `read_optional` decodes `params` when present, otherwise `result`
when present, and returns Ok(None) when both are absent; in particular
when both are present `params` takes precedence and `result` is never
inspected. -/
theorem read_optional_params_precedence {α : Type}
    (dec : String → Except String α) (m : JMessage) :
    m.read_optional dec =
      (match m.params with
      | some p => (dec p).map some
      | none =>
          match m.result with
          | some r => (dec r).map some
          | none => Except.ok none) := by
  cases hp : m.params <;> cases hr : m.result <;>
    simp [JMessage.read_optional, hp, hr]

end Net3
